import Mathlib

/-!
Shallow embedding of the hybrid document-search engine of the qbot-kth
repository (module with searchDocuments, extractKeywords, keywordMatchScore,
fallbackSearch, isGenericPage and the BM25 keyword fallback).

Modelling conventions:
- JavaScript numbers are modelled by the exact fraction type Score below (an
  integer numerator and denominator, not normalized, so that every operation
  of the model is kernel-computable); the decimal constants of the source
  (0.4, 0.6, 0.35, 0.10, 0.05, 0.5, 0.9, 0.7) are exact, and all score
  arithmetic the source performs is exact on these values, so the fraction
  semantics agrees with the float semantics of the source on them.  The map
  Score.toRat gives the rational value of a fraction, and theorems about
  magnitudes are stated through it.  A fraction with a nonpositive
  denominator plays the role of an invalid number; comparisons against it
  are false, as comparisons against NaN are in the source language.
- Math.sqrt is an explicit function parameter sq of the definitions that use
  it; sqrtScore below instantiates it and agrees with the real square root
  on perfect squares, which is the only place concrete theorems evaluate it.
- Strings are ASCII in every concrete input; Char.toLower and Char.toUpper
  match the behaviour of toLowerCase and toUpperCase there.
- The two supabase remote procedures and the corpus fetch are modelled by a
  record of outcomes (SearchEnv); the parameters the code passes to them are
  recorded in a SearchTrace so theorems can speak about the values used.
- A thrown exception that escapes searchDocuments is the SearchOutcome.error
  value; exceptions that the source catches locally are handled in place.
-/

namespace KthSearch

/-- Exact fraction standing for a JavaScript number: an integer numerator
over an integer denominator, not normalized.  All values the model builds
from literals keep a positive denominator; a nonpositive denominator only
arises from a division by zero and behaves like NaN under the comparisons
below. -/
structure Score where
  num : Int
  den : Int
deriving DecidableEq

instance : OfNat Score n := ⟨⟨(n : Int), 1⟩⟩

instance : OfScientific Score :=
  ⟨fun m b e => if b then ⟨(m : Int), (10 : Int) ^ e⟩ else ⟨(m : Int) * (10 : Int) ^ e, 1⟩⟩

/-- Exact addition of fractions. -/
def Score.add (a b : Score) : Score := ⟨a.num * b.den + b.num * a.den, a.den * b.den⟩

/-- Exact subtraction of fractions. -/
def Score.sub (a b : Score) : Score := ⟨a.num * b.den - b.num * a.den, a.den * b.den⟩

/-- Exact multiplication of fractions. -/
def Score.mul (a b : Score) : Score := ⟨a.num * b.num, a.den * b.den⟩

/-- Exact division of fractions; dividing by a fraction with numerator zero
produces a zero denominator, the invalid value, as dividing by zero produces
NaN or an infinity in the source language. -/
def Score.div (a b : Score) : Score := ⟨a.num * b.den, a.den * b.num⟩

instance : Add Score := ⟨Score.add⟩
instance : Sub Score := ⟨Score.sub⟩
instance : Mul Score := ⟨Score.mul⟩
instance : Div Score := ⟨Score.div⟩

/-- Strict comparison; false when either side is invalid, as every
comparison against NaN is false in the source language. -/
def Score.blt (a b : Score) : Bool :=
  decide (0 < a.den) && decide (0 < b.den) && decide (a.num * b.den < b.num * a.den)

/-- Non-strict comparison; false when either side is invalid. -/
def Score.ble (a b : Score) : Bool :=
  decide (0 < a.den) && decide (0 < b.den) && decide (a.num * b.den ≤ b.num * a.den)

/-- Maximum of two fractions, as the two-argument maximum function of the
source language on valid numbers. -/
def Score.maxS (a b : Score) : Score := if Score.blt a b then b else a

/-- Rational value of a fraction. -/
def Score.toRat (a : Score) : ℚ := (a.num : ℚ) / (a.den : ℚ)

theorem Score.toRat_mk (n d : Int) : (⟨n, d⟩ : Score).toRat = (n : ℚ) / (d : ℚ) := rfl

theorem Score.toRat_mul (a b : Score) : (a * b).toRat = a.toRat * b.toRat := by
  show ((a.num * b.num : Int) : ℚ) / ((a.den * b.den : Int) : ℚ) = _
  rw [Score.toRat, Score.toRat, div_mul_div_comm]
  push_cast
  ring_nf

theorem Score.toRat_div (a b : Score) : (a / b).toRat = a.toRat / b.toRat := by
  show ((a.num * b.den : Int) : ℚ) / ((a.den * b.num : Int) : ℚ) = _
  rw [Score.toRat, Score.toRat, div_div_eq_mul_div, div_mul_eq_mul_div, div_div]
  push_cast
  ring_nf

theorem Score.toRat_add (a b : Score) (ha : 0 < a.den) (hb : 0 < b.den) :
    (a + b).toRat = a.toRat + b.toRat := by
  have ha2 : ((a.den : ℚ)) ≠ 0 := by exact_mod_cast ha.ne.symm
  have hb2 : ((b.den : ℚ)) ≠ 0 := by exact_mod_cast hb.ne.symm
  show ((a.num * b.den + b.num * a.den : Int) : ℚ) / ((a.den * b.den : Int) : ℚ) = _
  rw [Score.toRat, Score.toRat, div_add_div _ _ ha2 hb2]
  push_cast
  ring_nf

theorem Score.toRat_sub (a b : Score) (ha : 0 < a.den) (hb : 0 < b.den) :
    (a - b).toRat = a.toRat - b.toRat := by
  have ha2 : ((a.den : ℚ)) ≠ 0 := by exact_mod_cast ha.ne.symm
  have hb2 : ((b.den : ℚ)) ≠ 0 := by exact_mod_cast hb.ne.symm
  show ((a.num * b.den - b.num * a.den : Int) : ℚ) / ((a.den * b.den : Int) : ℚ) = _
  rw [Score.toRat, Score.toRat, div_sub_div _ _ ha2 hb2]
  push_cast
  ring_nf

theorem Score.ble_iff (a b : Score) (ha : 0 < a.den) (hb : 0 < b.den) :
    Score.ble a b = true ↔ a.toRat ≤ b.toRat := by
  have ha2 : ((0 : ℚ)) < (a.den : ℚ) := by exact_mod_cast ha
  have hb2 : ((0 : ℚ)) < (b.den : ℚ) := by exact_mod_cast hb
  rw [Score.toRat, Score.toRat, div_le_div_iff ha2 hb2, Score.ble]
  simp only [Bool.and_eq_true, decide_eq_true_eq]
  constructor
  · rintro ⟨⟨-, -⟩, h⟩
    exact_mod_cast h
  · intro h
    exact ⟨⟨ha, hb⟩, by exact_mod_cast h⟩

theorem Score.blt_iff (a b : Score) (ha : 0 < a.den) (hb : 0 < b.den) :
    Score.blt a b = true ↔ a.toRat < b.toRat := by
  have ha2 : ((0 : ℚ)) < (a.den : ℚ) := by exact_mod_cast ha
  have hb2 : ((0 : ℚ)) < (b.den : ℚ) := by exact_mod_cast hb
  rw [Score.toRat, Score.toRat, div_lt_div_iff ha2 hb2, Score.blt]
  simp only [Bool.and_eq_true, decide_eq_true_eq]
  constructor
  · rintro ⟨⟨-, -⟩, h⟩
    exact_mod_cast h
  · intro h
    exact ⟨⟨ha, hb⟩, by exact_mod_cast h⟩

theorem Score.ble_denPos {a b : Score} (h : Score.ble a b = true) :
    0 < a.den ∧ 0 < b.den := by
  rw [Score.ble] at h
  simp only [Bool.and_eq_true, decide_eq_true_eq] at h
  exact ⟨h.1.1, h.1.2⟩

theorem Score.blt_denPos {a b : Score} (h : Score.blt a b = true) :
    0 < a.den ∧ 0 < b.den := by
  rw [Score.blt] at h
  simp only [Bool.and_eq_true, decide_eq_true_eq] at h
  exact ⟨h.1.1, h.1.2⟩

theorem Score.ble_true_toRat {a b : Score} (h : Score.ble a b = true) :
    a.toRat ≤ b.toRat :=
  (Score.ble_iff a b (Score.ble_denPos h).1 (Score.ble_denPos h).2).mp h

theorem Score.blt_true_toRat {a b : Score} (h : Score.blt a b = true) :
    a.toRat < b.toRat :=
  (Score.blt_iff a b (Score.blt_denPos h).1 (Score.blt_denPos h).2).mp h

theorem Score.maxS_denPos {a b : Score} (ha : 0 < a.den) (hb : 0 < b.den) :
    0 < (Score.maxS a b).den := by
  rw [Score.maxS]
  split <;> assumption

theorem Score.toRat_maxS (a b : Score) (ha : 0 < a.den) (hb : 0 < b.den) :
    (Score.maxS a b).toRat = max a.toRat b.toRat := by
  rw [Score.maxS]
  cases hlt : Score.blt a b
  case false =>
    have hnot : ¬ a.toRat < b.toRat := fun hc => by
      rw [(Score.blt_iff a b ha hb).mpr hc] at hlt
      exact Bool.true_eq_false.mp hlt
    simp [max_eq_left (le_of_not_lt hnot)]
  case true =>
    have := (Score.blt_iff a b ha hb).mp hlt
    simp [max_eq_right this.le]

/-- Apostrophe character, used inside string data of the source lists. -/
def apos : String := String.singleton (Char.ofNat 39)

/-- Whitespace test matching the JavaScript regex class for spaces on ASCII:
space, tab, line feed, vertical tab, form feed, carriage return. -/
def isSpaceChar (c : Char) : Bool :=
  c = ' ' || c.toNat = 9 || c.toNat = 10 || c.toNat = 11 || c.toNat = 12 || c.toNat = 13

/-- Word-character test matching the JavaScript regex word class on ASCII. -/
def isWordChar (c : Char) : Bool :=
  c.isAlpha || c.isDigit || c = '_'

/-- Lowercase a string, as toLowerCase does on ASCII input. -/
def lowerStr (s : String) : String := String.mk (s.toList.map Char.toLower)

/-- Uppercase a string, as toUpperCase does on ASCII input. -/
def upperStr (s : String) : String := String.mk (s.toList.map Char.toUpper)

/-- Decides whether the first list is a leading segment of the second. -/
def leadsChars : List Char → List Char → Bool
  | [], _ => true
  | _ :: _, [] => false
  | a :: as, b :: bs => a = b && leadsChars as bs

/-- Decides whether the first list occurs contiguously inside the second. -/
def containsChars (needle : List Char) : List Char → Bool
  | [] => needle.isEmpty
  | h :: t => leadsChars needle (h :: t) || containsChars needle t

/-- Substring test: hay contains needle, as the includes method of strings. -/
def strContains (hay needle : String) : Bool :=
  containsChars needle.toList hay.toList

/-- Split a character list at every character satisfying p; empty pieces are
kept, matching the split method of JavaScript strings. -/
def splitOnPred (p : Char → Bool) : List Char → List (List Char)
  | [] => [[]]
  | h :: t =>
    let r := splitOnPred p t
    if p h then [] :: r
    else
      match r with
      | [] => [[h]]
      | x :: xs => (h :: x) :: xs

/-- Split a string at every occurrence of a character, keeping empty pieces,
as the split method with a one-character separator. -/
def splitOnChar (c : Char) (s : String) : List String :=
  (splitOnPred (fun d => d = c) s.toList).map (fun l => String.mk l)

/-- Trim whitespace from both ends, as the trim method. -/
def trimStr (s : String) : String :=
  String.mk (((s.toList.dropWhile isSpaceChar).reverse.dropWhile isSpaceChar).reverse)

/-- Stopword list of extractKeywords, transcribed from the source. -/
def stopWords : List String := [
  "the", "is", "at", "which", "on", "a", "an", "and", "or", "but", "in",
  "with", "to", "for", "of", "as", "by", "from",
  "what", "how", "why", "when", "where", "who", "whom", "whose", "does", "do", "did",
  "has", "have", "had", "can", "could", "would", "should", "will", "are",
  "was", "were", "been", "being", "get", "got",
  "kth", "research", "doing", "work", "working", "about", "royal",
  "institute", "technology",
  "their", "them", "they", "this", "that", "these", "those", "its", "it",
  "we", "our", "you", "your", "i", "me", "my",
  "new", "recent", "latest", "good", "best", "great", "really", "very",
  "much", "more", "most", "some", "any", "all",
  "everyone", "everybody", "someone", "somebody", "anyone", "anybody",
  "thing", "things", "stuff",
  "talking", "saying", "think", "thinking", "know", "knowing", "tell",
  "told", "say", "said",
  "like", "want", "need", "going", "gonna", "actually", "really",
  "basically", "literally",
  "cool", "interesting", "important", "matter", "matters", "deal", "big",
  "lot", "lots",
  "waht", "bout", "abot", "whats", "hows", "whys",
  "what" ++ apos ++ "s", "how" ++ apos ++ "s", "why" ++ apos ++ "s",
  "who" ++ apos ++ "s", "where" ++ apos ++ "s", "when" ++ apos ++ "s"]

/-- Known department and centre acronyms of extractKeywords. -/
def knownAcronyms : List String :=
  ["seed", "beccs", "ccs", "ccus", "dac", "itm", "abe", "eecs", "sci", "cbh"]

/-- Test for a token of two to six uppercase ASCII letters, the all-caps
acronym regex of extractKeywords. -/
def isAllCapsAcronym (w : String) : Bool :=
  decide (2 ≤ w.length) && decide (w.length ≤ 6) &&
    w.toList.all (fun c => decide (Char.ofNat 65 ≤ c) && decide (c ≤ Char.ofNat 90))

/-- Tokenization of extractKeywords: every character that is neither a word
character nor whitespace becomes a space, then the text is split on
whitespace runs and empty tokens are dropped. -/
def tokenizeQuery (q : String) : List String :=
  let replaced := q.toList.map (fun c => if isWordChar c || isSpaceChar c then c else ' ')
  ((splitOnPred isSpaceChar replaced).filter (fun w => !w.isEmpty)).map (fun l => String.mk l)

/-- Keyword extraction: acronyms (all-caps tokens of length two to six, or
tokens on the acronym allowlist) are kept uppercased; every other token is
lowercased and kept when longer than two characters and not a stopword. -/
def extractKeywords (query : String) : List String :=
  (tokenizeQuery query).filterMap (fun w =>
    if isAllCapsAcronym w || knownAcronyms.contains (lowerStr w) then
      some (upperStr w)
    else
      let lower := lowerStr w
      if decide (2 < lower.length) && !(stopWords.contains lower) then some lower
      else none)

/-- Technical terms weighted higher in keyword matching, from the source. -/
def technicalTerms : List String := [
  "beccs", "ccs", "ccus", "dac", "carbon capture", "carbon dioxide", "co2",
  "hydrogen", "solar", "wind", "nuclear", "biofuel", "bioenergy", "biogas",
  "heat pump", "district heating", "energy storage", "battery",
  "electric vehicle",
  "emission", "greenhouse", "climate", "sustainable", "renewable", "fossil",
  "photovoltaic", "geothermal", "hydropower", "biomass", "sequestration",
  "negative emission", "net zero", "carbon neutral", "decarbonization"]

/-- Document record with the fields the search logic reads. -/
structure Document where
  id : String
  title : String
  content : String
  category : Option String
  author : Option String
  year : Option Int
deriving DecidableEq

/-- Scored document as produced by the pipeline; the optional vector and
keyword scores are absent on the client-side fallback path, matching the
source where those fields are only set on the other two paths. -/
structure DocumentWithScore where
  doc : Document
  similarity : Score
  vectorScore : Option Score
  keywordScore : Option Score
deriving DecidableEq

/-- Row returned by the vector or BM25 remote procedure: a document together
with a similarity number. -/
structure RpcDoc where
  id : String
  title : String
  content : String
  category : Option String
  author : Option String
  year : Option Int
  similarity : Score
deriving DecidableEq

/-- Forget the similarity of a remote-procedure row. -/
def RpcDoc.toDoc (r : RpcDoc) : Document :=
  ⟨r.id, r.title, r.content, r.category, r.author, r.year⟩

/-- Raw corpus row as fetched by the fallback scan; the embeddings column is
the result of parsing its JSON text, with none modelling a parse failure. -/
structure RawDocument where
  id : String
  title : String
  content : String
  category : Option String
  author : Option String
  year : Option Int
  embeddings : Option (List Score)
deriving DecidableEq

/-- Standardized document of a raw corpus row. -/
def RawDocument.toDoc (r : RawDocument) : Document :=
  ⟨r.id, r.title, r.content, r.category, r.author, r.year⟩

/-- Rendering of an optional field inside a template literal: an undefined
field prints as the text undefined. -/
def optField : Option String → String
  | some s => s
  | none => "undefined"

/-- Lowercased text block that keywordMatchScore matches against: title,
content, category and author joined by spaces. -/
def docText (d : Document) : String :=
  lowerStr (d.title ++ " " ++ d.content ++ " " ++ optField d.category ++ " " ++ optField d.author)

/-- Sum of a list of fractions, accumulating from zero on the left exactly
as the source accumulates into a mutable variable. -/
def sumScores (l : List Score) : Score := l.foldl Score.add 0

/-- Weight of a lowercased keyword: technical terms count three, others one. -/
def termWeight (lower : String) : Score :=
  if technicalTerms.contains lower then 3 else 1

/-- Keyword match score of a document: the weight fraction of keywords found
as substrings of the lowercased text block, each keyword lowercased before
both the weight lookup and the substring test. -/
def keywordMatchScore (d : Document) (keywords : List String) : Score :=
  if keywords.isEmpty then 0
  else
    let text := docText d
    let totalWeight := sumScores (keywords.map (fun k => termWeight (lowerStr k)))
    let matchedWeight := sumScores (keywords.map (fun k =>
      if strContains text (lowerStr k) then termWeight (lowerStr k) else 0))
    if Score.blt 0 totalWeight then matchedWeight / totalWeight else 0

/-- Cosine similarity; raises when the vectors have different lengths.  The
source loops over indices of the first vector, which on equal lengths equals
these zip and map sums. -/
def cosineSimilarity (sq : Score → Score) (a b : List Score) : Except String Score :=
  if a.length ≠ b.length then Except.error ("Vectors must have the same length")
  else
    let dotProduct := sumScores ((a.zip b).map (fun p => p.1 * p.2))
    let normA := sumScores (a.map (fun x => x * x))
    let normB := sumScores (b.map (fun x => x * x))
    Except.ok (dotProduct / (sq normA * sq normB))

/-- Floor square root of a natural number by bounded search; structural, so
that it is kernel-computable on the small concrete inputs of the theorems. -/
def natSqrtFloor (n : Nat) : Nat :=
  (List.range (n + 1)).foldl (fun acc k => if k * k ≤ n then k else acc) 0

/-- Square root on fractions, exact on perfect squares of valid nonnegative
fractions and zero elsewhere; it instantiates the square-root parameter in
concrete theorems, all of which only evaluate it on perfect squares, where
it agrees with the real square root of the source. -/
def sqrtScore (s : Score) : Score :=
  if 0 ≤ s.num ∧ 0 < s.den then
    let n := natSqrtFloor s.num.toNat
    let d := natSqrtFloor s.den.toNat
    if ((n : Int) * n = s.num ∧ (d : Int) * d = s.den) then ⟨n, d⟩ else 0
  else 0

/-- Pipe character. -/
def pipeChar : Char := Char.ofNat 124

/-- Line feed character, which the regex dot does not match. -/
def lfChar : Char := Char.ofNat 10

/-- Carriage return character, which the regex dot does not match. -/
def crChar : Char := Char.ofNat 13

/-- Exact lowercase titles of known generic pages, from isGenericPage. -/
def exactGenericPages : List String := [
  "research | kth",
  "forskning | kth",
  "news from kth | kth",
  "studies at kth | kth | sweden",
  "studies at kth | kth",
  "about kth | kth",
  "contact | kth",
  "kth" ++ apos ++ "s president and management | kth",
  "business and community | kth",
  "kth innovation | kth",
  "environment and sustainable development at kth | kth",
  "national infrastructures | kth",
  "research centres | kth",
  "research environments | kth",
  "kth" ++ apos ++ "s research environments | kth",
  "kth:s strategic research initiatives | kth"]

/-- Decides whether a character list is whitespace followed by the exact
letters k, t, h at its end: the tail regex after the pipe. -/
def spacesThenKth : List Char → Bool
  | ['k', 't', 'h'] => true
  | c :: rest => isSpaceChar c && spacesThenKth rest
  | [] => false

/-- Decides whether a character list matches: at least one character that is
not a line break, then a space, a pipe, optional whitespace and kth at the
end.  This is the tail of the category page regexes after their prefix. -/
def dotPlusPipeKth : List Char → Bool
  | [] => false
  | c :: rest =>
    !(c = lfChar) && !(c = crChar) &&
      ((match rest with
        | ' ' :: p :: r => p = pipeChar && spacesThenKth r
        | _ => false) ||
       dotPlusPipeKth rest)

/-- Lowercased prefixes of the category page regexes of isGenericPage. -/
def categoryPrefixes : List String :=
  ["school of ", "department of ", "the school of ", "division of "]

/-- Case-insensitive test of one category page regex: the prefix, then at
least one character, then a space, a pipe, optional whitespace and kth at the
end of the title. -/
def matchesCategory (p : String) (lowerTitle : List Char) : Bool :=
  leadsChars p.toList lowerTitle && dotPlusPipeKth (lowerTitle.drop p.length)

/-- Decides whether the title ends with a pipe, optional whitespace and kth:
the unanchored case-insensitive regex of pattern three of isGenericPage. -/
def endsPipeKth : List Char → Bool
  | [] => false
  | c :: rest => (c = pipeChar && spacesThenKth rest) || endsPipeKth rest

/-- Lowercased research-indicator substrings that keep a title ending in the
site suffix from being treated as generic. -/
def keepPatterns : List String := [
  "research overview", "project", "study", "assessment", "analysis",
  "beccs", "carbon capture", "energy", "climate", "sustainable",
  "workshop", "award", "initiative"]

/-- Generic-page test of the ranking pipeline, transcribed from the closure
inside searchDocuments: exact generic titles, category page patterns, titles
ending in the site suffix without a research indicator or with at most two
words before the first pipe, and very short content. -/
def isGenericPage (title : String) (content : String) : Bool :=
  if title = "" then false
  else
    let lowerTitle := trimStr (lowerStr title)
    if exactGenericPages.contains lowerTitle then true
    else if categoryPrefixes.any (fun p => matchesCategory p (lowerStr title).toList) then true
    else if endsPipeKth (lowerStr title).toList then
      if keepPatterns.any (fun pat => strContains (lowerStr title) pat) then
        if ((splitOnChar ' ' (trimStr ((splitOnChar pipeChar title).headD ""))).length ≤ 2) then
          true
        else false
      else true
    else if !(content = "") && content.length < 200 then true
    else false

/-- Recency boost of the hybrid scorer: up to five percent for the current
year, decaying linearly over ten years; a missing or zero year (zero being
falsy in the source) gives no boost. -/
def recencyBoost (currentYear : Int) (year : Option Int) : Score :=
  match year with
  | some y => if y ≠ 0 then (Score.maxS 0 (1 - (⟨currentYear - y, 1⟩ : Score) / 10)) * 0.05 else 0
  | none => 0

/-- Hybrid scoring of one vector candidate: forty percent vector similarity,
sixty percent keyword score, plus the recency boost. -/
def scoreCandidate (currentYear : Int) (keywords : List String) (c : RpcDoc) : DocumentWithScore :=
  let vectorScore := c.similarity
  let keywordScore := if keywords.isEmpty then 0 else keywordMatchScore c.toDoc keywords
  ⟨c.toDoc, vectorScore * 0.4 + keywordScore * 0.6 + recencyBoost currentYear c.year,
    some vectorScore, some keywordScore⟩

/-- Insert a document into a list sorted by descending similarity, after all
strictly higher scores and before equal ones, so that the insertion sort
below is the stable descending sort that the sort method of arrays performs
with the comparator on similarity. -/
def insertDesc (x : DocumentWithScore) : List DocumentWithScore → List DocumentWithScore
  | [] => [x]
  | y :: ys => if Score.blt x.similarity y.similarity then y :: insertDesc x ys else x :: y :: ys

/-- Stable sort by descending similarity. -/
def sortByScore : List DocumentWithScore → List DocumentWithScore
  | [] => []
  | x :: xs => insertDesc x (sortByScore xs)

/-- Content relevance filter: with a non-empty keyword list, at least one
keyword must occur verbatim inside the lowercased title and content; the
keyword itself is not lowercased here, exactly as in the source. -/
def contentFilter (keywords : List String) (d : DocumentWithScore) : Bool :=
  if keywords.isEmpty then true
  else keywords.any (fun k => strContains (lowerStr (d.doc.title ++ " " ++ d.doc.content)) k)

/-- Deduplication by exact title keeping the first occurrence, as the filter
over a seen set does in the source. -/
def dedupAux (seen : List String) : List DocumentWithScore → List DocumentWithScore
  | [] => []
  | d :: rest =>
    if seen.contains d.doc.title then dedupAux seen rest
    else d :: dedupAux (d.doc.title :: seen) rest

/-- Deduplication by exact title. -/
def dedupByTitle (l : List DocumentWithScore) : List DocumentWithScore :=
  dedupAux [] l

/-- Scoring and filtering stages of the remote-procedure path of
searchDocuments: hybrid scoring, stable sort, cut at the final threshold,
content relevance filter, title deduplication, generic-page filter. -/
def hybridPipeline (currentYear : Int) (keywords : List String) (threshold : Score)
    (vectorResults : List RpcDoc) : List DocumentWithScore :=
  let hybridResults := vectorResults.map (scoreCandidate currentYear keywords)
  let sorted := sortByScore hybridResults
  let aboveThreshold := sorted.filter (fun d => Score.ble threshold d.similarity)
  let contentRelevant := aboveThreshold.filter (contentFilter keywords)
  let uniqueResults := dedupByTitle contentRelevant
  uniqueResults.filter (fun d => !(isGenericPage d.doc.title d.doc.content))

/-- Maximum raw similarity of a result batch, as the spread of the scores
into the maximum function; only used on non-empty batches. -/
def batchMax : List RpcDoc → Score
  | [] => 0
  | h :: t => t.foldl (fun m r => Score.maxS m r.similarity) h.similarity

/-- Normalization of one BM25 row against the batch maximum: a positive
maximum scales linearly into the interval from one half to nine tenths, and
otherwise the score is seven tenths. -/
def bm25Normalize (maxScore : Score) (r : RpcDoc) : DocumentWithScore :=
  let normalizedScore :=
    if Score.blt 0 maxScore then 0.5 + 0.4 * (r.similarity / maxScore) else 0.7
  ⟨r.toDoc, normalizedScore, some 0, some normalizedScore⟩

/-- Normalization of a whole BM25 result batch. -/
def normalizeBM25 (rows : List RpcDoc) : List DocumentWithScore :=
  rows.map (bm25Normalize (batchMax rows))

/-- Truthiness of the optional query text: the empty string is falsy. -/
def jsText : Option String → Option String
  | some s => if s = "" then none else some s
  | none => none

/-- Keywords extracted from a truthy query text, empty otherwise, as the
conditional at step two of searchDocuments. -/
def queryKeywords (queryText : Option String) : List String :=
  match jsText queryText with
  | some t => extractKeywords t
  | none => []

/-- Query string sent to the BM25 lookup: the extracted keywords joined by
spaces when any exist, the raw query text otherwise. -/
def bm25Query (keywords : List String) (queryText : String) : String :=
  if keywords.isEmpty then queryText else String.intercalate " " keywords

/-- Outcome of one remote call: data rows, an error whose message names the
missing function, or any other error. -/
inductive RpcResult (α : Type) where
  | ok (rows : List α)
  | errFnNotFound
  | errOther
deriving DecidableEq

/-- Environment of one searchDocuments run: the outcome each external call
would produce, plus the current year. -/
structure SearchEnv where
  matchDocs : RpcResult RpcDoc
  keywordDocs : RpcResult RpcDoc
  corpus : RpcResult RawDocument
  currentYear : Int

/-- Result of searchDocuments: a returned list, or a thrown error escaping
the function. -/
inductive SearchOutcome where
  | ok (docs : List DocumentWithScore)
  | error
deriving DecidableEq

/-- Record of the parameters searchDocuments passed to the two remote
procedures, and whether the client-side fallback ran. -/
structure SearchTrace where
  vectorCall : Option (Score × Nat)
  bm25Call : Option (String × Nat)
  usedFallback : Bool
deriving DecidableEq

/-- Result list of the BM25 fallback branch: rows are normalized and
deduplicated and the first limit survive; a missing function, another error
or an empty batch all end in an empty returned list, never a throw. -/
def bm25Outcome (env : SearchEnv) (limit : Nat) : SearchOutcome :=
  match env.keywordDocs with
  | RpcResult.ok rows =>
    if rows.isEmpty then SearchOutcome.ok []
    else SearchOutcome.ok ((dedupByTitle (normalizeBM25 rows)).take limit)
  | _ => SearchOutcome.ok []

/-- Client-side fallback search: fetch the corpus, score every row whose
embedding parses and has the query dimension (any other row is skipped by
the per-document exception handler), keep hybrid scores at or above the
threshold, then apply the content filter, title deduplication, the stable
descending sort and the limit.  No recency boost, generic-page filter or
BM25 fallback runs on this path, matching the source. -/
def fallbackSearch (sq : Score → Score) (env : SearchEnv) (queryEmbedding : List Score)
    (limit : Nat) (threshold : Score) (queryText : Option String) : List DocumentWithScore :=
  match env.corpus with
  | RpcResult.ok rawDocuments =>
    if rawDocuments.isEmpty then []
    else
      let keywords := queryKeywords queryText
      let allDocs := rawDocuments.filterMap (fun rawDoc =>
        match rawDoc.embeddings with
        | none => none
        | some docEmbedding =>
          match cosineSimilarity sq queryEmbedding docEmbedding with
          | Except.error _ => none
          | Except.ok vectorScore =>
            let doc := rawDoc.toDoc
            let keywordScore := if keywords.isEmpty then 0 else keywordMatchScore doc keywords
            let hybridScore := vectorScore * 0.4 + keywordScore * 0.6
            if Score.ble threshold hybridScore then some (⟨doc, hybridScore, none, none⟩ : DocumentWithScore)
            else none)
      let relevantDocs := allDocs.filter (contentFilter keywords)
      let uniqueDocs := dedupByTitle relevantDocs
      (sortByScore uniqueDocs).take limit
  | _ => []

/-- Hybrid search, transcribed from searchDocuments: query the vector lookup
with the loosened threshold and twenty times the limit; route a missing
function to the client-side fallback; rethrow any other vector lookup error;
return empty on an empty candidate set; otherwise run the scoring and
filtering stages and, if they leave nothing and query text is truthy, the
BM25 fallback. -/
def searchDocuments (sq : Score → Score) (env : SearchEnv) (queryEmbedding : List Score)
    (limit : Nat) (threshold : Score) (queryText : Option String) :
    SearchOutcome × SearchTrace :=
  let vectorThreshold := Score.maxS (threshold - 0.35) 0.10
  let vcall := some (vectorThreshold, limit * 20)
  match env.matchDocs with
  | RpcResult.errFnNotFound =>
    (SearchOutcome.ok (fallbackSearch sq env queryEmbedding limit threshold queryText),
      ⟨vcall, none, true⟩)
  | RpcResult.errOther => (SearchOutcome.error, ⟨vcall, none, false⟩)
  | RpcResult.ok vectorResults =>
    if vectorResults.isEmpty then (SearchOutcome.ok [], ⟨vcall, none, false⟩)
    else
      let keywords := queryKeywords queryText
      let qualityResults := hybridPipeline env.currentYear keywords threshold vectorResults
      if qualityResults.isEmpty then
        match jsText queryText with
        | some qt =>
          (bm25Outcome env limit, ⟨vcall, some (bm25Query keywords qt, limit * 2), false⟩)
        | none => (SearchOutcome.ok (qualityResults.take limit), ⟨vcall, none, false⟩)
      else (SearchOutcome.ok (qualityResults.take limit), ⟨vcall, none, false⟩)

theorem mem_insertDesc {a x : DocumentWithScore} {l : List DocumentWithScore} :
    a ∈ insertDesc x l ↔ a = x ∨ a ∈ l := by
  induction l with
  | nil => simp [insertDesc]
  | cons y ys ih =>
    rw [insertDesc]
    split
    · simp only [List.mem_cons, ih]
      tauto
    · exact List.mem_cons

theorem mem_sortByScore {a : DocumentWithScore} {l : List DocumentWithScore} :
    a ∈ sortByScore l ↔ a ∈ l := by
  induction l with
  | nil => simp [sortByScore]
  | cons x xs ih =>
    rw [sortByScore, mem_insertDesc]
    simp [ih]

theorem mem_dedupAux {a : DocumentWithScore} {seen : List String}
    {l : List DocumentWithScore} (h : a ∈ dedupAux seen l) : a ∈ l := by
  induction l generalizing seen with
  | nil => simpa [dedupAux] using h
  | cons d rest ih =>
    rw [dedupAux] at h
    split at h
    · exact List.mem_cons_of_mem _ (ih h)
    · rcases List.mem_cons.mp h with h1 | h2
      · exact h1 ▸ List.mem_cons_self _ _
      · exact List.mem_cons_of_mem _ (ih h2)

/-- Every document produced by the scoring and filtering stages comes from
scoring one vector candidate, and its fused score passed the comparison
against the caller threshold. -/
theorem hybridPipeline_mem {d : DocumentWithScore} {currentYear : Int}
    {keywords : List String} {threshold : Score} {vectorResults : List RpcDoc}
    (h : d ∈ hybridPipeline currentYear keywords threshold vectorResults) :
    (∃ c ∈ vectorResults, d = scoreCandidate currentYear keywords c) ∧
      Score.ble threshold d.similarity = true := by
  rw [hybridPipeline] at h
  have h1 := (List.mem_filter.mp h).1
  have h2 := mem_dedupAux h1
  have h3 := (List.mem_filter.mp h2).1
  have h4 := List.mem_filter.mp h3
  have h5 := mem_sortByScore.mp h4.1
  rcases List.mem_map.mp h5 with ⟨c, hc, hd⟩
  exact ⟨⟨c, hc, hd.symm⟩, h4.2⟩

theorem keywordMatchScore_nil (d : Document) : keywordMatchScore d [] = 0 := rfl

/-- Recency boost as the specification words it, over the rationals: the
maximum of zero and one minus a tenth of the age, times five percent, when
the year is known, and zero otherwise. -/
def specRecencyBoost (currentYear : Int) (year : Option Int) : ℚ :=
  match year with
  | some y => max 0 (1 - ((currentYear : ℚ) - (y : ℚ)) / 10) * 0.05
  | none => 0

/-- The recency boost of the source has the value the specification states,
for any current year of at least ten (so that the year value zero, which the
source treats as missing, also carries a zero boost in the specification
formula). -/
theorem Score.toRat_zero : (0 : Score).toRat = 0 := by
  rw [show (0 : Score) = ⟨0, 1⟩ from by decide, Score.toRat_mk]
  norm_num

theorem recencyBoost_toRat (currentYear : Int) (year : Option Int)
    (h10 : 10 ≤ currentYear) :
    (recencyBoost currentYear year).toRat = specRecencyBoost currentYear year := by
  rcases year with _ | y
  · exact Score.toRat_zero
  · rw [recencyBoost, specRecencyBoost]
    by_cases hy : y = 0
    · subst hy
      simp only [ne_eq, not_true_eq_false, if_false]
      have hcy : (10 : ℚ) ≤ (currentYear : ℚ) := by exact_mod_cast h10
      have hle : (1 : ℚ) - ((currentYear : ℚ) - (((0 : Int)) : ℚ)) / 10 ≤ 0 := by
        push_cast
        linarith
      rw [Score.toRat_zero, max_eq_left hle]
      norm_num
    · simp only [hy, ne_eq, not_false_eq_true, if_true]
      have h005 : (0.05 : Score) = ⟨5, 100⟩ := by decide
      rw [h005, Score.toRat_mul]
      have hX : ((1 : Score) - (⟨currentYear - y, 1⟩ : Score) / 10)
          = ⟨1 * (1 * 10) - (currentYear - y) * 1 * 1, 1 * (1 * 10)⟩ := rfl
      have hXden : (0 : Int) < 1 * (1 * 10) := by decide
      have hXval : ((1 : Score) - (⟨currentYear - y, 1⟩ : Score) / 10).toRat
          = 1 - ((currentYear : ℚ) - (y : ℚ)) / 10 := by
        rw [hX, Score.toRat_mk]
        push_cast
        ring
      have h0den : (0 : Int) < (0 : Score).den := by decide
      rw [Score.toRat_maxS _ _ h0den (by rw [hX]; exact hXden), hXval]
      rw [Score.toRat_zero, Score.toRat_mk]
      norm_num

theorem foldl_maxS_denPos (t : List RpcDoc) (m : Score) (hm : 0 < m.den)
    (ht : ∀ r ∈ t, 0 < r.similarity.den) :
    0 < (t.foldl (fun a r => Score.maxS a r.similarity) m).den := by
  induction t generalizing m with
  | nil => exact hm
  | cons r rest ih =>
    exact ih _ (Score.maxS_denPos hm (ht r (List.mem_cons_self _ _)))
      (fun x hx => ht x (List.mem_cons_of_mem _ hx))

theorem foldl_maxS_init_le (t : List RpcDoc) (m : Score) (hm : 0 < m.den)
    (ht : ∀ r ∈ t, 0 < r.similarity.den) :
    m.toRat ≤ (t.foldl (fun a r => Score.maxS a r.similarity) m).toRat := by
  induction t generalizing m with
  | nil => exact le_refl _
  | cons r rest ih =>
    have hr := ht r (List.mem_cons_self _ _)
    have step : m.toRat ≤ (Score.maxS m r.similarity).toRat := by
      rw [Score.toRat_maxS _ _ hm hr]
      exact le_max_left _ _
    exact le_trans step (ih _ (Score.maxS_denPos hm hr)
      (fun x hx => ht x (List.mem_cons_of_mem _ hx)))

theorem foldl_maxS_mem_le (t : List RpcDoc) (m : Score) (hm : 0 < m.den)
    (ht : ∀ r ∈ t, 0 < r.similarity.den) :
    ∀ r ∈ t, r.similarity.toRat ≤ (t.foldl (fun a r => Score.maxS a r.similarity) m).toRat := by
  induction t generalizing m with
  | nil => intro r hr; cases hr
  | cons x rest ih =>
    intro r hr
    have hx := ht x (List.mem_cons_self _ _)
    rcases List.mem_cons.mp hr with h1 | h2
    · subst h1
      have step : r.similarity.toRat ≤ (Score.maxS m r.similarity).toRat := by
        rw [Score.toRat_maxS _ _ hm hx]
        exact le_max_right _ _
      exact le_trans step (foldl_maxS_init_le rest _ (Score.maxS_denPos hm hx)
        (fun y hy => ht y (List.mem_cons_of_mem _ hy)))
    · exact ih _ (Score.maxS_denPos hm hx)
        (fun y hy => ht y (List.mem_cons_of_mem _ hy)) r h2

theorem batchMax_denPos {rows : List RpcDoc}
    (hwf : ∀ r ∈ rows, 0 < r.similarity.den) (hne : rows ≠ []) :
    0 < (batchMax rows).den := by
  rcases rows with _ | ⟨h, t⟩
  · exact absurd rfl hne
  · exact foldl_maxS_denPos t _ (hwf h (List.mem_cons_self _ _))
      (fun x hx => hwf x (List.mem_cons_of_mem _ hx))

theorem le_batchMax {rows : List RpcDoc}
    (hwf : ∀ r ∈ rows, 0 < r.similarity.den) :
    ∀ r ∈ rows, r.similarity.toRat ≤ (batchMax rows).toRat := by
  rcases rows with _ | ⟨h, t⟩
  · intro r hr; cases hr
  · intro r hr
    have hh := hwf h (List.mem_cons_self _ _)
    have htl : ∀ x ∈ t, 0 < x.similarity.den :=
      fun x hx => hwf x (List.mem_cons_of_mem _ hx)
    rcases List.mem_cons.mp hr with h1 | h2
    · subst h1
      exact foldl_maxS_init_le t _ hh htl
    · exact foldl_maxS_mem_le t _ hh htl r h2

/-- The keyword score only sees the lowercased keywords: two keyword lists
with the same lowercasing give the same score. -/
theorem keywordMatchScore_map_lower (d : Document) (ks ks2 : List String)
    (h : ks.map lowerStr = ks2.map lowerStr) :
    keywordMatchScore d ks = keywordMatchScore d ks2 := by
  have key : ∀ g : String → Score,
      ks.map (fun k => g (lowerStr k)) = ks2.map (fun k => g (lowerStr k)) := by
    intro g
    have e1 : ks.map (fun k => g (lowerStr k)) = (ks.map lowerStr).map g := by
      rw [List.map_map]
      rfl
    have e2 : ks2.map (fun k => g (lowerStr k)) = (ks2.map lowerStr).map g := by
      rw [List.map_map]
      rfl
    rw [e1, e2, h]
  have hempty : ks.isEmpty = ks2.isEmpty := by
    cases ks <;> cases ks2 <;> simp_all
  simp only [keywordMatchScore]
  rw [hempty,
    key (fun l => termWeight l),
    key (fun l => if strContains (docText d) l = true then termWeight l else 0)]

theorem Score.mul_den (a b : Score) : (a * b).den = a.den * b.den := rfl

theorem Score.div_den (a b : Score) : (a / b).den = a.den * b.num := rfl

/-- Any document returned through the hybrid path (no fallback run, no BM25
call recorded) is a member of the scoring-and-filtering pipeline output on
the vector candidates the environment supplied. -/
theorem hybrid_path_mem {sq : Score → Score} {env : SearchEnv} {qe : List Score}
    {limit : Nat} {threshold : Score} {qt : Option String}
    {docs : List DocumentWithScore} {tr : SearchTrace}
    (hres : searchDocuments sq env qe limit threshold qt = (SearchOutcome.ok docs, tr))
    (hbm : tr.bm25Call = none) (hfb : tr.usedFallback = false)
    {d : DocumentWithScore} (hd : d ∈ docs) :
    ∃ vr, env.matchDocs = RpcResult.ok vr ∧
      d ∈ hybridPipeline env.currentYear (queryKeywords qt) threshold vr := by
  rcases henv : env.matchDocs with vr | _ | _
  · simp only [searchDocuments, henv] at hres
    by_cases hvre : vr.isEmpty = true
    · rw [if_pos hvre] at hres
      injection hres with h1 h2
      injection h1 with h1
      subst h1
      cases hd
    · rw [if_neg hvre] at hres
      by_cases hq : (hybridPipeline env.currentYear (queryKeywords qt) threshold vr).isEmpty = true
      · rw [if_pos hq] at hres
        rcases hjt : jsText qt with _ | t
        · rw [hjt] at hres
          injection hres with h1 h2
          injection h1 with h1
          subst h1
          rw [List.isEmpty_iff.mp hq] at hd
          simp at hd
        · rw [hjt] at hres
          injection hres with h1 h2
          subst h2
          simp at hbm
      · rw [if_neg hq] at hres
        injection hres with h1 h2
        injection h1 with h1
        subst h1
        exact ⟨vr, rfl, List.take_subset _ _ hd⟩
  · simp only [searchDocuments, henv] at hres
    injection hres with h1 h2
    subst h2
    simp at hfb
  · simp only [searchDocuments, henv] at hres
    injection hres with h1 h2
    exact SearchOutcome.noConfusion h1

theorem map_lowerStr_set (ks : List String) (i : Nat) (k : String)
    (hi : i < ks.length) (hk : lowerStr k = lowerStr (ks.get ⟨i, hi⟩)) :
    (ks.set i k).map lowerStr = ks.map lowerStr := by
  induction ks generalizing i with
  | nil => cases hi
  | cons x xs ih =>
    cases i with
    | zero => simpa using hk
    | succ j =>
      have hj : j < xs.length := Nat.lt_of_succ_lt_succ hi
      have := ih j hj (by simpa using hk)
      simpa using this

theorem bm25Outcome_ok (env : SearchEnv) (limit : Nat) :
    ∃ docs, bm25Outcome env limit = SearchOutcome.ok docs := by
  rw [bm25Outcome]
  rcases env.keywordDocs with rows | _ | _
  · by_cases h : rows.isEmpty <;> simp [h]
  · exact ⟨[], rfl⟩
  · exact ⟨[], rfl⟩

/-! Concrete fixtures and the claim theorems. -/

/-- C5: the extractor on the query about BECCS at KTH keeps the acronym
BECCS uppercase and drops the lowercase stopword forms what, is, doing, at
and kth; acronym tokens are exempted from stopword filtering. -/
theorem C5_acronym_preservation :
    ("BECCS" ∈ extractKeywords ("What is BECCS doing at KTH?")) ∧
    ("what" ∉ extractKeywords ("What is BECCS doing at KTH?")) ∧
    ("is" ∉ extractKeywords ("What is BECCS doing at KTH?")) ∧
    ("doing" ∉ extractKeywords ("What is BECCS doing at KTH?")) ∧
    ("at" ∉ extractKeywords ("What is BECCS doing at KTH?")) ∧
    ("kth" ∉ extractKeywords ("What is BECCS doing at KTH?")) := by decide

/-- C6: for every content value, the generic-page test holds of a document
titled exactly Research | KTH and fails of one titled BECCS Research
Overview | KTH, and no document titled Research | KTH survives the
scoring-and-filtering stages of the pipeline. -/
theorem C6_generic_page_filter (content : String) :
    isGenericPage ("Research | KTH") content = true ∧
    isGenericPage ("BECCS Research Overview | KTH") content = false ∧
    ∀ (cy : Int) (ks : List String) (t : Score) (vr : List RpcDoc)
      (d : DocumentWithScore), d.doc.title = "Research | KTH" →
        d ∉ hybridPipeline cy ks t vr := by
  refine ⟨rfl, rfl, ?_⟩
  intro cy ks t vr d htitle hmem
  rw [hybridPipeline] at hmem
  have h2 := (List.mem_filter.mp hmem).2
  rw [htitle] at h2
  have h3 : isGenericPage ("Research | KTH") d.doc.content = true := rfl
  rw [h3] at h2
  cases h2

/-- Witness for C6 at the empty content and a concrete pipeline input. -/
theorem C6_generic_page_filter_witness :
    isGenericPage ("Research | KTH") "" = true ∧
    isGenericPage ("BECCS Research Overview | KTH") "" = false ∧
    (⟨⟨"w6", "Research | KTH", "", none, none, none⟩, 1, none, none⟩ :
        DocumentWithScore) ∉ hybridPipeline 2025 [] 1 [] := by
  have h := C6_generic_page_filter ""
  exact ⟨h.1, h.2.1, h.2.2 2025 [] 1 [] _ rfl⟩

/-- Document fixture for C10. -/
def d10 : Document := ⟨"10", "BECCS study", "BECCS at KTH", none, none, none⟩

/-- C10: the keyword score is case-insensitive in its keywords: replacing a
keyword by a differently cased variant leaves the score unchanged, because
each keyword is lowercased before both the technical-term weight lookup and
the substring test. -/
theorem C10_keyword_case_insensitive (d : Document) (ks : List String)
    (i : Nat) (k : String) (hi : i < ks.length)
    (hk : lowerStr k = lowerStr (ks.get ⟨i, hi⟩)) :
    keywordMatchScore d (ks.set i k) = keywordMatchScore d ks :=
  keywordMatchScore_map_lower d _ _ (map_lowerStr_set ks i k hi hk)

/-- Witness for C10: replacing the uppercase acronym BECCS by its lowercase
form leaves the score of a concrete document unchanged. -/
theorem C10_keyword_case_insensitive_witness :
    keywordMatchScore d10 (["BECCS"].set 0 ("beccs"))
      = keywordMatchScore d10 ["BECCS"] :=
  C10_keyword_case_insensitive d10 ["BECCS"] 0 ("beccs") (by decide) (by decide)

/-- Corpus document of end-to-end scenario B: BECCS research overview with
the acronym in title and content, high vector similarity. -/
def beccsRpcDoc : RpcDoc :=
  ⟨"1", "BECCS Research Overview", "BECCS captures CO2 from biomass", none, none, none, 0.9⟩

/-- Environment of end-to-end scenario B: the vector lookup returns the
BECCS document, the BM25 lookup and corpus fetch return nothing. -/
def env1 : SearchEnv :=
  ⟨RpcResult.ok [beccsRpcDoc], RpcResult.ok [], RpcResult.ok [], 2025⟩

/-- C1: the extracted keyword BECCS appears verbatim in the concatenated
title and content of the scenario B document and its fused score passes the
display threshold, yet the content-relevance filter rejects it (the filter
compares the uppercase keyword against lowercased text), so searchDocuments
returns no results on scenario B and falls through to the BM25 lookup. -/
theorem C1_beccs_content_filter_bug :
    ("BECCS" ∈ extractKeywords ("What is BECCS?")) ∧
    strContains (beccsRpcDoc.title ++ " " ++ beccsRpcDoc.content) ("BECCS") = true ∧
    contentFilter (extractKeywords ("What is BECCS?"))
      (scoreCandidate 2025 (extractKeywords ("What is BECCS?")) beccsRpcDoc) = false ∧
    Score.ble 0.55
      (scoreCandidate 2025 (extractKeywords ("What is BECCS?")) beccsRpcDoc).similarity = true ∧
    (searchDocuments sqrtScore env1 [1] 5 0.5 (some ("What is BECCS?"))).1
      = SearchOutcome.ok [] ∧
    (searchDocuments sqrtScore env1 [1] 5 0.5 (some ("What is BECCS?"))).2.bm25Call
      = some (("BECCS"), 10) := by decide

/-- C3: the vector lookup is always invoked with the loosened threshold (the
maximum of the desired threshold minus 0.35 and 0.10) and twenty times the
limit, while every document returned through the hybrid path passed the cut
at the desired threshold itself; at threshold one half the two values are
0.15 and 0.5, which differ. -/
theorem C3_threshold_separation (sq : Score → Score) (env : SearchEnv)
    (qe : List Score) (limit : Nat) (threshold : Score) (qt : Option String) :
    (searchDocuments sq env qe limit threshold qt).2.vectorCall
        = some (Score.maxS (threshold - 0.35) 0.10, limit * 20)
    ∧ (∀ docs tr,
        searchDocuments sq env qe limit threshold qt = (SearchOutcome.ok docs, tr) →
        tr.bm25Call = none → tr.usedFallback = false →
        ∀ d ∈ docs, threshold.toRat ≤ d.similarity.toRat)
    ∧ (Score.maxS ((0.5 : Score) - 0.35) 0.10).toRat = 0.15
    ∧ (0.5 : Score).toRat = 0.5
    ∧ ((0.15 : ℚ) ≠ (0.5 : ℚ)) := by
  refine ⟨?_, ?_, ?_, ?_, by norm_num⟩
  · rcases henv : env.matchDocs with vr | _ | _ <;>
      simp only [searchDocuments, henv] <;> try rfl
    by_cases hvre : vr.isEmpty = true
    · rw [if_pos hvre]
    · rw [if_neg hvre]
      by_cases hq :
          (hybridPipeline env.currentYear (queryKeywords qt) threshold vr).isEmpty = true
      · rw [if_pos hq]
        rcases hjt : jsText qt with _ | t <;> rfl
      · rw [if_neg hq]
  · intro docs tr hres hbm hfb d hd
    obtain ⟨vr, henv, hdm⟩ := hybrid_path_mem hres hbm hfb hd
    exact Score.ble_true_toRat (hybridPipeline_mem hdm).2
  · rw [show Score.maxS ((0.5 : Score) - 0.35) 0.10 = ⟨150, 1000⟩ from by decide,
      Score.toRat_mk]
    norm_num
  · rw [show (0.5 : Score) = ⟨5, 10⟩ from by decide, Score.toRat_mk]
    norm_num

/-- Vector candidate fixture for the C3 witness. -/
def c3doc : RpcDoc := ⟨"d3", "Climate adaptation in cities", "", none, none, none, 0.8⟩

/-- Environment fixture for the C3 witness. -/
def env3 : SearchEnv := ⟨RpcResult.ok [c3doc], RpcResult.ok [], RpcResult.ok [], 2025⟩

/-- The scored document searchDocuments returns on the C3 witness run. -/
def res3 : DocumentWithScore :=
  ⟨⟨"d3", "Climate adaptation in cities", "", none, none, none⟩,
    ⟨2760, 3000⟩, some ⟨8, 10⟩, some ⟨3, 3⟩⟩

/-- Witness for C3 on a concrete run at threshold one half. -/
theorem C3_threshold_separation_witness :
    (searchDocuments sqrtScore env3 [1] 5 (0.5 : Score) (some ("climate"))).2.vectorCall
      = some (Score.maxS ((0.5 : Score) - 0.35) 0.10, 100)
    ∧ (0.5 : Score).toRat ≤ res3.similarity.toRat := by
  have h := C3_threshold_separation sqrtScore env3 [1] 5 0.5 (some ("climate"))
  refine ⟨h.1, ?_⟩
  exact h.2.1 [res3] ⟨some (Score.maxS ((0.5 : Score) - 0.35) 0.10, 100), none, false⟩
    (by decide) rfl rfl res3 (List.mem_singleton.mpr rfl)

/-- C4: every document returned through the hybrid path carries a vector and
keyword score, the keyword score is the keyword match score of the extracted
keywords, the fused similarity is exactly forty percent vector plus sixty
percent keyword plus the recency boost, and the recency boost has the value
the specification states (linear decay to zero over ten years, capped at
five percent). -/
theorem C4_weight_invariant (sq : Score → Score) (env : SearchEnv) (qe : List Score)
    (limit : Nat) (threshold : Score) (qt : Option String)
    (h10 : 10 ≤ env.currentYear)
    (docs : List DocumentWithScore) (tr : SearchTrace)
    (hres : searchDocuments sq env qe limit threshold qt = (SearchOutcome.ok docs, tr))
    (hbm : tr.bm25Call = none) (hfb : tr.usedFallback = false) :
    ∀ d ∈ docs, ∃ v k : Score,
      d.vectorScore = some v ∧ d.keywordScore = some k ∧
      k = keywordMatchScore d.doc (queryKeywords qt) ∧
      d.similarity = v * 0.4 + k * 0.6 + recencyBoost env.currentYear d.doc.year ∧
      (recencyBoost env.currentYear d.doc.year).toRat
        = specRecencyBoost env.currentYear d.doc.year := by
  intro d hd
  obtain ⟨vr, henv, hdm⟩ := hybrid_path_mem hres hbm hfb hd
  obtain ⟨⟨c, hc, hdc⟩, hble⟩ := hybridPipeline_mem hdm
  subst hdc
  refine ⟨c.similarity,
    (if (queryKeywords qt).isEmpty then 0 else keywordMatchScore c.toDoc (queryKeywords qt)),
    rfl, rfl, ?_, rfl, recencyBoost_toRat _ _ h10⟩
  by_cases hks : (queryKeywords qt).isEmpty = true
  · rw [if_pos hks, keywordMatchScore, if_pos hks]
  · rw [if_neg hks]
    rfl

/-- Vector candidate fixture for the C4 witness. -/
def c4doc : RpcDoc := ⟨"d4", "Climate adaptation in cities", "", none, none, none, 0.8⟩

/-- Environment fixture for the C4 witness. -/
def env4 : SearchEnv := ⟨RpcResult.ok [c4doc], RpcResult.ok [], RpcResult.ok [], 2025⟩

/-- The scored document searchDocuments returns on the C4 witness run. -/
def res4 : DocumentWithScore :=
  ⟨⟨"d4", "Climate adaptation in cities", "", none, none, none⟩,
    ⟨2760, 3000⟩, some ⟨8, 10⟩, some ⟨3, 3⟩⟩

/-- Witness for C4 on a concrete run. -/
theorem C4_weight_invariant_witness :
    ∃ v k : Score, res4.vectorScore = some v ∧ res4.keywordScore = some k ∧
      k = keywordMatchScore res4.doc (queryKeywords (some ("climate"))) ∧
      res4.similarity = v * 0.4 + k * 0.6 + recencyBoost env4.currentYear res4.doc.year ∧
      (recencyBoost env4.currentYear res4.doc.year).toRat
        = specRecencyBoost env4.currentYear res4.doc.year :=
  C4_weight_invariant sqrtScore env4 [1] 5 0.5 (some ("climate")) (by decide) [res4]
    ⟨some (Score.maxS ((0.5 : Score) - 0.35) 0.10, 100), none, false⟩ (by decide) rfl rfl
    res4 (List.mem_singleton.mpr rfl)

/-- BM25 row available in the C2 counterexample environment. -/
def bm25RowC2 : RpcDoc :=
  ⟨"c2", "Climate research paper", "climate study content", none, none, none, 0.02⟩

/-- C2 counterexample environment: the vector lookup succeeds with an empty
candidate set, query text is available, and the BM25 lookup would return a
matching document. -/
def envC2 : SearchEnv :=
  ⟨RpcResult.ok [], RpcResult.ok [bm25RowC2], RpcResult.ok [], 2025⟩

/-- C2 counterexample: with an empty vector candidate set and query text
available (so the scoring-and-filtering stages trivially yield zero
documents), searchDocuments returns empty without issuing any BM25 lookup,
even though the BM25 lookup would have returned a document. -/
theorem C2_counterexample :
    (searchDocuments sqrtScore envC2 [1] 5 0.5 (some ("climate"))).1 = SearchOutcome.ok []
    ∧ (searchDocuments sqrtScore envC2 [1] 5 0.5 (some ("climate"))).2.bm25Call = none
    ∧ envC2.keywordDocs = RpcResult.ok [bm25RowC2] := by decide

/-- C2 amended: the BM25 lookup is issued exactly when the vector lookup
returned a non-empty candidate set whose documents the scoring-and-filtering
stages then all eliminate and truthy query text is available; when it is
issued it is keyed on the joined extracted keywords and the function still
returns a list rather than raising; and when the vector candidate set is
empty the function returns an empty list with no BM25 call and no error. -/
theorem C2_bm25_fallback_condition (sq : Score → Score) (env : SearchEnv)
    (qe : List Score) (limit : Nat) (threshold : Score) (qt : Option String) :
    (((searchDocuments sq env qe limit threshold qt).2.bm25Call ≠ none) ↔
      (∃ vr t, env.matchDocs = RpcResult.ok vr ∧ vr.isEmpty = false ∧
        jsText qt = some t ∧
        (hybridPipeline env.currentYear (extractKeywords t) threshold vr).isEmpty = true))
    ∧ (∀ vr t, env.matchDocs = RpcResult.ok vr → vr.isEmpty = false →
      jsText qt = some t →
      (hybridPipeline env.currentYear (extractKeywords t) threshold vr).isEmpty = true →
      (searchDocuments sq env qe limit threshold qt).2.bm25Call
          = some (bm25Query (extractKeywords t) t, limit * 2)
        ∧ ∃ docs, (searchDocuments sq env qe limit threshold qt).1 = SearchOutcome.ok docs)
    ∧ (env.matchDocs = RpcResult.ok [] →
        (searchDocuments sq env qe limit threshold qt).1 = SearchOutcome.ok []
        ∧ (searchDocuments sq env qe limit threshold qt).2.bm25Call = none) := by
  refine ⟨⟨?_, ?_⟩, ?_, ?_⟩
  · intro hne
    rcases henv : env.matchDocs with vr | _ | _
    · simp only [searchDocuments, henv] at hne
      by_cases hvre : vr.isEmpty = true
      · rw [if_pos hvre] at hne
        exact absurd rfl hne
      · by_cases hq :
            (hybridPipeline env.currentYear (queryKeywords qt) threshold vr).isEmpty = true
        · rw [if_neg hvre, if_pos hq] at hne
          rcases hjt : jsText qt with _ | t
          · rw [hjt] at hne
            exact absurd rfl hne
          · have hqk : queryKeywords qt = extractKeywords t := by
              rw [queryKeywords, hjt]
            refine ⟨vr, t, rfl, by simpa using hvre, rfl, ?_⟩
            rw [← hqk]
            exact hq
        · rw [if_neg hvre, if_neg hq] at hne
          exact absurd rfl hne
    · simp only [searchDocuments, henv] at hne
      exact absurd rfl hne
    · simp only [searchDocuments, henv] at hne
      exact absurd rfl hne
  · rintro ⟨vr, t, henv, hvre, hjt, hq⟩
    have hqk : queryKeywords qt = extractKeywords t := by
      rw [queryKeywords, hjt]
    simp only [searchDocuments, henv]
    rw [hqk, if_neg (by simp [hvre]), if_pos hq, hjt]
    simp
  · intro vr t henv hvr hjt hq
    have hqk : queryKeywords qt = extractKeywords t := by
      rw [queryKeywords, hjt]
    simp only [searchDocuments, henv]
    rw [hqk, if_neg (by simp [hvr]), if_pos hq, hjt]
    exact ⟨rfl, bm25Outcome_ok env limit⟩
  · intro henv
    simp [searchDocuments, henv]

/-- Candidate that scores below every threshold, for the C2 witness. -/
def lowRpcDoc : RpcDoc := ⟨"c2w", "Unrelated title", "nothing here", none, none, none, 0⟩

/-- C2 witness environment: one vector candidate that filtering eliminates. -/
def envC2w : SearchEnv :=
  ⟨RpcResult.ok [lowRpcDoc], RpcResult.ok [], RpcResult.ok [], 2025⟩

/-- Witness for the amended C2: on a concrete run whose one candidate the
filtering stages eliminate, the BM25 lookup is issued keyed on the extracted
keyword, and on a concrete run with an empty candidate set it is not. -/
theorem C2_bm25_fallback_condition_witness :
    (searchDocuments sqrtScore envC2w [1] 5 (0.5 : Score) (some ("climate"))).2.bm25Call
      = some (bm25Query (extractKeywords ("climate")) ("climate"), 10)
    ∧ (searchDocuments sqrtScore envC2 [1] 5 (0.5 : Score) (some ("climate"))).2.bm25Call
      = none :=
  ⟨((C2_bm25_fallback_condition sqrtScore envC2w [1] 5 0.5 (some ("climate"))).2.1
      [lowRpcDoc] ("climate") rfl (by decide) (by decide) (by decide)).1,
    ((C2_bm25_fallback_condition sqrtScore envC2 [1] 5 0.5 (some ("climate"))).2.2 rfl).2⟩

/-- C8 counterexample environment: the vector lookup fails with an error
that does not carry the missing-function signature, a transient failure. -/
def envC8 : SearchEnv :=
  ⟨RpcResult.errOther, RpcResult.ok [], RpcResult.ok [], 2025⟩

/-- C8 counterexample: a transient vector lookup failure makes
searchDocuments throw, although the claim says it never throws for such a
recoverable condition. -/
theorem C8_counterexample :
    (searchDocuments sqrtScore envC8 [1] 5 0.5 (some ("climate"))).1
      = SearchOutcome.error := by decide

/-- C8 amended: searchDocuments raises an error exactly when the vector
lookup fails with an error other than the missing-function signature; every
other condition, including BM25 failures, yields a returned list.  The
standalone cosineSimilarity raises exactly on a dimensionality mismatch,
but inside the fallback scan that error is caught per document. -/
theorem C8_error_characterization (sq : Score → Score) (env : SearchEnv)
    (qe : List Score) (limit : Nat) (threshold : Score) (qt : Option String) :
    ((searchDocuments sq env qe limit threshold qt).1 = SearchOutcome.error
      ↔ env.matchDocs = RpcResult.errOther)
    ∧ ∀ a b : List Score,
        ((∃ e, cosineSimilarity sq a b = Except.error e) ↔ a.length ≠ b.length) := by
  constructor
  · rcases henv : env.matchDocs with vr | _ | _
    · refine iff_of_false ?_ (fun h => RpcResult.noConfusion h)
      simp only [searchDocuments, henv]
      split
      · exact fun h => SearchOutcome.noConfusion h
      · split
        · split
          · obtain ⟨ds, hds⟩ := bm25Outcome_ok env limit
            simp [hds]
          · simp
        · simp
    · refine iff_of_false ?_ (fun h => RpcResult.noConfusion h)
      simp only [searchDocuments, henv]
      simp
    · refine iff_of_true ?_ rfl
      simp only [searchDocuments, henv]
  · intro a b
    simp only [cosineSimilarity]
    split
    next h => exact iff_of_true ⟨_, rfl⟩ h
    next h =>
      constructor
      · rintro ⟨e, he⟩
        exact Except.noConfusion he
      · intro hh
        exact absurd hh h

/-- Witness for the amended C8: the error case of the characterization and
the dimensionality-mismatch case of cosineSimilarity at concrete inputs. -/
theorem C8_error_characterization_witness :
    (searchDocuments sqrtScore envC8 [1] 5 (0.5 : Score) (some ("climate"))).1
        = SearchOutcome.error
    ∧ ∃ e, cosineSimilarity sqrtScore [1] [1, 0] = Except.error e :=
  ⟨((C8_error_characterization sqrtScore envC8 [1] 5 0.5 (some ("climate"))).1).mpr rfl,
    ((C8_error_characterization sqrtScore envC8 [1] 5 0.5 (some ("climate"))).2
      [1] [1, 0]).mpr (by decide)⟩

/-- Corpus row of the C9 counterexample: a generic page that matches the
query keyword and the query embedding exactly. -/
def gRaw : RawDocument :=
  ⟨"2", "Research | KTH", "KTH climate research landing page with many links",
    none, none, none, some [1]⟩

/-- The same document as the vector lookup would return it, with the cosine
similarity of the identical embedding. -/
def gRpc : RpcDoc :=
  ⟨"2", "Research | KTH", "KTH climate research landing page with many links",
    none, none, none, 1⟩

/-- C9 environment where the vector lookup reports the missing function. -/
def envFnf : SearchEnv :=
  ⟨RpcResult.errFnNotFound, RpcResult.ok [], RpcResult.ok [gRaw], 2025⟩

/-- C9 environment where the vector lookup works, over the same corpus. -/
def envRpc : SearchEnv :=
  ⟨RpcResult.ok [gRpc], RpcResult.ok [], RpcResult.ok [gRaw], 2025⟩

/-- C9 counterexample: on the identical one-document corpus the client-side
fallback path returns the generic-titled document (at fused score one) while
the remote path filters it out and returns nothing, so the two paths are not
equivalent: the fallback path never applies the generic-page filter. -/
theorem C9_counterexample :
    (searchDocuments sqrtScore envFnf [1] 5 0.5 (some ("climate"))).1
      = SearchOutcome.ok [⟨RawDocument.toDoc gRaw, ⟨300, 300⟩, none, none⟩]
    ∧ (searchDocuments sqrtScore envRpc [1] 5 0.5 (some ("climate"))).1
      = SearchOutcome.ok []
    ∧ (⟨300, 300⟩ : Score).toRat = 1
    ∧ gRpc.toDoc = gRaw.toDoc := by
  refine ⟨by decide, by decide, ?_, by decide⟩
  rw [Score.toRat_mk]
  norm_num

/-- C9 amended: when the vector lookup reports the missing function,
searchDocuments returns exactly the output of the client-side fallbackSearch
(which shares the threshold cut, content filter and title deduplication but
not the recency boost, the generic-page filter or the BM25 fallback), and
records that the fallback ran. -/
theorem C9_fallback_routing (sq : Score → Score) (env : SearchEnv)
    (qe : List Score) (limit : Nat) (threshold : Score) (qt : Option String)
    (h : env.matchDocs = RpcResult.errFnNotFound) :
    searchDocuments sq env qe limit threshold qt
      = (SearchOutcome.ok (fallbackSearch sq env qe limit threshold qt),
          ⟨some (Score.maxS (threshold - 0.35) 0.10, limit * 20), none, true⟩) := by
  simp only [searchDocuments, h]

/-- Witness for the amended C9 at the counterexample environment. -/
theorem C9_fallback_routing_witness :
    (searchDocuments sqrtScore envFnf [1] 5 (0.5 : Score) (some ("climate"))).1
      = SearchOutcome.ok (fallbackSearch sqrtScore envFnf [1] 5 (0.5 : Score)
          (some ("climate"))) := by
  rw [C9_fallback_routing sqrtScore envFnf [1] 5 0.5 (some ("climate")) rfl]

theorem Score.blt_zero_pos {m : Score} (h : Score.blt 0 m = true) :
    0 < m.num ∧ 0 < m.den := by
  rw [show (0 : Score) = ⟨0, 1⟩ from by decide, Score.blt] at h
  simp only [Bool.and_eq_true, decide_eq_true_eq] at h
  refine ⟨?_, h.1.2⟩
  have h2 := h.2
  simpa using h2

theorem Score.toRat_pos {m : Score} (hn : 0 < m.num) (hd : 0 < m.den) :
    0 < m.toRat :=
  div_pos (by exact_mod_cast hn) (by exact_mod_cast hd)

theorem Score.toRat_half : (0.5 : Score).toRat = 0.5 := by
  rw [show (0.5 : Score) = ⟨5, 10⟩ from by decide, Score.toRat_mk]
  norm_num

theorem Score.toRat_fourTenths : (0.4 : Score).toRat = 0.4 := by
  rw [show (0.4 : Score) = ⟨4, 10⟩ from by decide, Score.toRat_mk]
  norm_num

theorem Score.toRat_sevenTenths : (0.7 : Score).toRat = 0.7 := by
  rw [show (0.7 : Score) = ⟨7, 10⟩ from by decide, Score.toRat_mk]
  norm_num

theorem bm25Normalize_similarity (m : Score) (r : RpcDoc) :
    (bm25Normalize m r).similarity
      = if Score.blt 0 m then 0.5 + 0.4 * (r.similarity / m) else 0.7 := rfl

/-- Value of one normalized BM25 score when the batch maximum is positive. -/
theorem bm25Normalize_toRat {rows : List RpcDoc}
    (hwf : ∀ r ∈ rows, 0 < r.similarity.den)
    {r : RpcDoc} (hr : r ∈ rows)
    (hblt : Score.blt 0 (batchMax rows) = true) :
    (bm25Normalize (batchMax rows) r).similarity.toRat
      = 0.5 + 0.4 * (r.similarity.toRat / (batchMax rows).toRat) := by
  obtain ⟨hmn, hmd⟩ := Score.blt_zero_pos hblt
  have hrd := hwf r hr
  rw [bm25Normalize_similarity, if_pos hblt]
  have hden : 0 < ((0.4 : Score) * (r.similarity / batchMax rows)).den := by
    rw [Score.mul_den, Score.div_den]
    have h04 : (0 : Int) < (0.4 : Score).den := by decide
    exact Int.mul_pos h04 (Int.mul_pos hrd hmn)
  rw [Score.toRat_add _ _ (by decide) hden, Score.toRat_mul, Score.toRat_div,
    Score.toRat_half, Score.toRat_fourTenths]

/-- C7 amended: with nonnegative valid raw scores, every normalized BM25
score lies between one half and nine tenths; a document whose raw score
attains a positive batch maximum is mapped to exactly nine tenths; and when
the batch maximum is zero every document is mapped to seven tenths. -/
theorem C7_bm25_normalization (rows : List RpcDoc)
    (hwf : ∀ r ∈ rows, 0 < r.similarity.den)
    (hnn : ∀ r ∈ rows, 0 ≤ r.similarity.toRat) :
    (∀ d ∈ normalizeBM25 rows,
        (0.5 : ℚ) ≤ d.similarity.toRat ∧ d.similarity.toRat ≤ 0.9)
    ∧ (∀ r ∈ rows, Score.blt 0 (batchMax rows) = true →
        r.similarity.toRat = (batchMax rows).toRat →
        (bm25Normalize (batchMax rows) r).similarity.toRat = 0.9)
    ∧ ((batchMax rows).toRat = 0 →
        ∀ d ∈ normalizeBM25 rows, d.similarity.toRat = 0.7) := by
  refine ⟨?_, ?_, ?_⟩
  · intro d hd
    rw [normalizeBM25] at hd
    obtain ⟨r, hr, hdr⟩ := List.mem_map.mp hd
    subst hdr
    cases hblt : Score.blt 0 (batchMax rows)
    case false =>
      rw [bm25Normalize_similarity, hblt, if_neg (by decide), Score.toRat_sevenTenths]
      norm_num
    case true =>
      rw [bm25Normalize_toRat hwf hr hblt]
      obtain ⟨hmn, hmd⟩ := Score.blt_zero_pos hblt
      have hmpos : 0 < (batchMax rows).toRat := Score.toRat_pos hmn hmd
      have hrle : r.similarity.toRat ≤ (batchMax rows).toRat := le_batchMax hwf r hr
      have hrnn : 0 ≤ r.similarity.toRat := hnn r hr
      have hq1 : r.similarity.toRat / (batchMax rows).toRat ≤ 1 :=
        (div_le_one hmpos).mpr hrle
      have hq0 : 0 ≤ r.similarity.toRat / (batchMax rows).toRat :=
        div_nonneg hrnn hmpos.le
      constructor <;> nlinarith
  · intro r hr hblt heq
    obtain ⟨hmn, hmd⟩ := Score.blt_zero_pos hblt
    have hmpos : 0 < (batchMax rows).toRat := Score.toRat_pos hmn hmd
    rw [bm25Normalize_toRat hwf hr hblt, heq, div_self (ne_of_gt hmpos)]
    norm_num
  · intro hmax0 d hd
    rw [normalizeBM25] at hd
    obtain ⟨r, hr, hdr⟩ := List.mem_map.mp hd
    subst hdr
    cases hblt : Score.blt 0 (batchMax rows)
    case false =>
      rw [bm25Normalize_similarity, hblt, if_neg (by decide)]
      exact Score.toRat_sevenTenths
    case true =>
      exfalso
      have hlt := Score.blt_true_toRat hblt
      rw [Score.toRat_zero, hmax0] at hlt
      exact lt_irrefl 0 hlt

/-- BM25 row with raw score zero, for the C7 counterexample. -/
def zeroRow : RpcDoc := ⟨"z", "Zero scored", "text", none, none, none, 0⟩

/-- C7 counterexample: in a batch whose only (hence maximal) raw score is
zero, the normalized score is seven tenths, not the nine tenths the claim
requires for the maximum-scoring document of every batch. -/
theorem C7_counterexample :
    batchMax [zeroRow] = zeroRow.similarity
    ∧ (normalizeBM25 [zeroRow]).map (fun d => d.similarity) = [(0.7 : Score)]
    ∧ (0.7 : Score).toRat ≠ (0.9 : ℚ) := by
  refine ⟨by decide, by decide, ?_⟩
  rw [Score.toRat_sevenTenths]
  norm_num

/-- Top-scored BM25 row for the C7 witness. -/
def r71 : RpcDoc := ⟨"r71", "Top doc", "text a", none, none, none, 0.2⟩

/-- Second BM25 row for the C7 witness. -/
def r72 : RpcDoc := ⟨"r72", "Second doc", "text b", none, none, none, 0.1⟩

/-- Witness for the amended C7: in a concrete two-document batch the
maximal raw score is mapped to exactly nine tenths. -/
theorem C7_bm25_normalization_witness :
    (bm25Normalize (batchMax [r71, r72]) r71).similarity.toRat = 0.9 := by
  have hwf : ∀ r ∈ ([r71, r72] : List RpcDoc), 0 < r.similarity.den := by decide
  have hnn : ∀ r ∈ ([r71, r72] : List RpcDoc), 0 ≤ r.similarity.toRat := by
    intro r hr
    rcases List.mem_cons.mp hr with h | h
    · subst h
      rw [show r71.similarity = ⟨2, 10⟩ from by decide, Score.toRat_mk]
      norm_num
    · rcases List.mem_cons.mp h with h2 | h2
      · subst h2
        rw [show r72.similarity = ⟨1, 10⟩ from by decide, Score.toRat_mk]
        norm_num
      · cases h2
  have hblt : Score.blt 0 (batchMax [r71, r72]) = true := by decide
  have heq : r71.similarity.toRat = (batchMax [r71, r72]).toRat := by
    rw [show batchMax [r71, r72] = r71.similarity from by decide]
  exact (C7_bm25_normalization [r71, r72] hwf hnn).2.1 r71
    (List.mem_cons_self _ _) hblt heq

end KthSearch
